import Mathlib

/-!
Shallow embedding of the punching-shear critical-section calculator
(`src/app.py`): the section generator `generate_critical_section` and the
property calculator `calculate_section_properties`, together with proofs of
the specified properties.  Real-valued Python arithmetic is modelled over `ℝ`.
-/

open Classical

namespace PunchingShear

/-- A 2D point, column-centered coordinates. -/
abbrev Point := ℝ × ℝ

/-- One entry of the calculator's `segments` list: endpoints, length and
midpoint coordinates, as stored by the accumulation loop. -/
structure Seg where
  p1 : Point
  p2 : Point
  l : ℝ
  xm : ℝ
  ym : ℝ

/-- Euclidean length of the segment from `p` to `q`
(`math.sqrt((x2 - x1)**2 + (y2 - y1)**2)`). -/
noncomputable def segLen (p q : Point) : ℝ :=
  Real.sqrt ((q.1 - p.1) ^ 2 + (q.2 - p.2) ^ 2)

/-- The segment record appended for the consecutive pair `(p, q)`. -/
noncomputable def mkSeg (p q : Point) : Seg :=
  ⟨p, q, segLen p q, (p.1 + q.1) / 2, (p.2 + q.2) / 2⟩

/-- The list of segment records built by the loop over consecutive point
pairs; zero-length segments are skipped (`if l == 0: continue`). -/
noncomputable def segsOf : List Point → List Seg
  | p :: q :: rest => (if segLen p q = 0 then [] else [mkSeg p q]) ++ segsOf (q :: rest)
  | _ => []

/-- Accumulated `total_length`. -/
noncomputable def total_length (pts : List Point) : ℝ :=
  ((segsOf pts).map Seg.l).sum

/-- Accumulated `sum_mx` (length-weighted y midpoints). -/
noncomputable def sum_mx (pts : List Point) : ℝ :=
  ((segsOf pts).map (fun s => s.l * s.ym)).sum

/-- Accumulated `sum_my` (length-weighted x midpoints). -/
noncomputable def sum_my (pts : List Point) : ℝ :=
  ((segsOf pts).map (fun s => s.l * s.xm)).sum

/-- Centroid x coordinate `x_bar = sum_my / total_length`. -/
noncomputable def x_bar (pts : List Point) : ℝ := sum_my pts / total_length pts

/-- Centroid y coordinate `y_bar = sum_mx / total_length`. -/
noncomputable def y_bar (pts : List Point) : ℝ := sum_mx pts / total_length pts

/-- The list `x_shifted_all`: for every segment, both endpoint x coordinates
shifted by the centroid. -/
noncomputable def x_shifted_all (pts : List Point) : List ℝ :=
  ((segsOf pts).map (fun s => [s.p1.1 - x_bar pts, s.p2.1 - x_bar pts])).flatten

/-- The list `y_shifted_all`: for every segment, both endpoint y coordinates
shifted by the centroid. -/
noncomputable def y_shifted_all (pts : List Point) : List ℝ :=
  ((segsOf pts).map (fun s => [s.p1.2 - y_bar pts, s.p2.2 - y_bar pts])).flatten

/-- Centroidal moment of inertia about X (`Jcx_c` accumulation). -/
noncomputable def Jcx_c (pts : List Point) (d : ℝ) : ℝ :=
  ((segsOf pts).map (fun s =>
    d * (s.l / 3) *
      ((s.p1.2 - y_bar pts) ^ 2 + (s.p1.2 - y_bar pts) * (s.p2.2 - y_bar pts) +
        (s.p2.2 - y_bar pts) ^ 2))).sum

/-- Centroidal moment of inertia about Y (`Jcy_c` accumulation). -/
noncomputable def Jcy_c (pts : List Point) (d : ℝ) : ℝ :=
  ((segsOf pts).map (fun s =>
    d * (s.l / 3) *
      ((s.p1.1 - x_bar pts) ^ 2 + (s.p1.1 - x_bar pts) * (s.p2.1 - x_bar pts) +
        (s.p2.1 - x_bar pts) ^ 2))).sum

/-- Centroidal product of inertia (`Jxy_c` accumulation). -/
noncomputable def Jxy_c (pts : List Point) (d : ℝ) : ℝ :=
  ((segsOf pts).map (fun s =>
    d * (s.l / 6) *
      (2 * (s.p1.1 - x_bar pts) * (s.p1.2 - y_bar pts) +
        (s.p1.1 - x_bar pts) * (s.p2.2 - y_bar pts) +
        (s.p2.1 - x_bar pts) * (s.p1.2 - y_bar pts) +
        2 * (s.p2.1 - x_bar pts) * (s.p2.2 - y_bar pts)))).sum

/-- Python's `max` over a list (junk value 0 on the empty list, which the
calculator never reaches). -/
noncomputable def listMax : List ℝ → ℝ
  | [] => 0
  | a :: t => t.foldl max a

/-- Python's `min` over a list (junk value 0 on the empty list). -/
noncomputable def listMin : List ℝ → ℝ
  | [] => 0
  | a :: t => t.foldl min a

/-- Extreme fiber `c_x_max = max(x_shifted_all)`. -/
noncomputable def c_x_max (pts : List Point) : ℝ := listMax (x_shifted_all pts)

/-- Extreme fiber `c_x_min = min(x_shifted_all)`. -/
noncomputable def c_x_min (pts : List Point) : ℝ := listMin (x_shifted_all pts)

/-- Extreme fiber `c_y_max = max(y_shifted_all)`. -/
noncomputable def c_y_max (pts : List Point) : ℝ := listMax (y_shifted_all pts)

/-- Extreme fiber `c_y_min = min(y_shifted_all)`. -/
noncomputable def c_y_min (pts : List Point) : ℝ := listMin (y_shifted_all pts)

/-- `avg_J = (Jcx_c + Jcy_c) / 2`. -/
noncomputable def avg_J (pts : List Point) (d : ℝ) : ℝ := (Jcx_c pts d + Jcy_c pts d) / 2

/-- `diff_J = (Jcx_c - Jcy_c) / 2`. -/
noncomputable def diff_J (pts : List Point) (d : ℝ) : ℝ := (Jcx_c pts d - Jcy_c pts d) / 2

/-- Mohr-circle radius `sqrt(diff_J**2 + Jxy_c**2)`. -/
noncomputable def radius (pts : List Point) (d : ℝ) : ℝ :=
  Real.sqrt (diff_J pts d ^ 2 + Jxy_c pts d ^ 2)

/-- Major principal moment `J_max = avg_J + radius`. -/
noncomputable def J_max (pts : List Point) (d : ℝ) : ℝ := avg_J pts d + radius pts d

/-- Minor principal moment `J_min = avg_J - radius`. -/
noncomputable def J_min (pts : List Point) (d : ℝ) : ℝ := avg_J pts d - radius pts d

/-- `math.atan2 y x` over the reals (signed zeros do not exist in `ℝ`;
`atan2 0 x = π` for `x < 0`, matching `atan2(+0.0, x)`). -/
noncomputable def atan2 (y x : ℝ) : ℝ :=
  if 0 < x then Real.arctan (y / x)
  else if x < 0 ∧ 0 ≤ y then Real.arctan (y / x) + Real.pi
  else if x < 0 then Real.arctan (y / x) - Real.pi
  else if 0 < y then Real.pi / 2
  else if y < 0 then -(Real.pi / 2)
  else 0

/-- Principal-axis rotation angle in radians, with the near-equal-axes
branches of the source. -/
noncomputable def theta_rad (pts : List Point) (d : ℝ) : ℝ :=
  if |Jcx_c pts d - Jcy_c pts d| < 1e-6 then
    (if |Jxy_c pts d| < 1e-6 then 0 else Real.pi / 4)
  else 0.5 * atan2 (-2 * Jxy_c pts d) (Jcx_c pts d - Jcy_c pts d)

/-- The dict under the `extreme` key. -/
structure Extreme where
  cx_pos : ℝ
  cx_neg : ℝ
  cy_pos : ℝ
  cy_neg : ℝ

/-- The result dict of `calculate_section_properties`. -/
structure SectionProperties where
  bo : ℝ
  Ac : ℝ
  Centroid : Point
  Jcx : ℝ
  Jcy : ℝ
  Jxy : ℝ
  J_major : ℝ
  J_minor : ℝ
  theta_deg : ℝ
  segments : List Seg
  extreme : Extreme
  points_shifted : List Point

/-- The property calculator: `None` when the total length is zero, otherwise
the populated result dict (`math.degrees` is multiplication by `180 / π`). -/
noncomputable def calculate_section_properties (pts : List Point) (d : ℝ) :
    Option SectionProperties :=
  if total_length pts = 0 then none
  else some
    { bo := total_length pts
      Ac := total_length pts * d
      Centroid := (x_bar pts, y_bar pts)
      Jcx := Jcx_c pts d
      Jcy := Jcy_c pts d
      Jxy := Jxy_c pts d
      J_major := J_max pts d
      J_minor := J_min pts d
      theta_deg := theta_rad pts d * 180 / Real.pi
      segments := segsOf pts
      extreme := ⟨c_x_max pts, c_x_min pts, c_y_max pts, c_y_min pts⟩
      points_shifted := (x_shifted_all pts).zip (y_shifted_all pts) }

/-- The shape generator `generate_critical_section` with its three
string-tagged topology branches; an unrecognized tag yields `[]`. -/
noncomputable def generate_critical_section (Cx Cy dist : ℝ) (col_type : String) :
    List Point :=
  let hx := Cx / 2
  let hy := Cy / 2
  let X_far := hx + dist
  let Y_far := hy + dist
  if col_type = "Interior" then
    [(-hx, Y_far), (hx, Y_far), (X_far, hy), (X_far, -hy),
      (hx, -Y_far), (-hx, -Y_far), (-X_far, -hy), (-X_far, hy), (-hx, Y_far)]
  else if col_type = "Edge (Left Free)" then
    [(-hx, Y_far), (hx, Y_far), (X_far, hy), (X_far, -hy),
      (hx, -Y_far), (-hx, -Y_far)]
  else if col_type = "Corner (Top-Left Free)" then
    [(X_far, hy), (X_far, -hy), (hx, -Y_far), (-hx, -Y_far)]
  else []

/-- Spec-side definition ("Raw centroid = (Σ l·x_mid, Σ l·y_mid) / Σ l"):
the consecutive point pairs whose segment length is positive, written
directly from the spec's words for comparison with the implementation. -/
noncomputable def specPosSegs (pts : List Point) : List (Point × Point) :=
  (pts.zip pts.tail).filter (fun pq => decide (segLen pq.1 pq.2 ≠ 0))

/-- Spec-side total length `Σ l` over the positive-length segments. -/
noncomputable def specTotal (pts : List Point) : ℝ :=
  ((specPosSegs pts).map (fun pq => segLen pq.1 pq.2)).sum

/-- Spec-side line centroid `(Σ l·x_mid, Σ l·y_mid) / Σ l`. -/
noncomputable def specCentroid (pts : List Point) : Point :=
  (((specPosSegs pts).map (fun pq => segLen pq.1 pq.2 * ((pq.1.1 + pq.2.1) / 2))).sum /
      specTotal pts,
    ((specPosSegs pts).map (fun pq => segLen pq.1 pq.2 * ((pq.1.2 + pq.2.2) / 2))).sum /
      specTotal pts)

/-- Spec-side about-X moment: `Σ d·(l/3)·(y1'² + y1'·y2' + y2'²)` with
endpoints shifted by the spec centroid. -/
noncomputable def specJcx (pts : List Point) (d : ℝ) : ℝ :=
  ((specPosSegs pts).map (fun pq =>
    d * (segLen pq.1 pq.2 / 3) *
      ((pq.1.2 - (specCentroid pts).2) ^ 2 +
        (pq.1.2 - (specCentroid pts).2) * (pq.2.2 - (specCentroid pts).2) +
        (pq.2.2 - (specCentroid pts).2) ^ 2))).sum

/-- Spec-side about-Y moment: `Σ d·(l/3)·(x1'² + x1'·x2' + x2'²)`. -/
noncomputable def specJcy (pts : List Point) (d : ℝ) : ℝ :=
  ((specPosSegs pts).map (fun pq =>
    d * (segLen pq.1 pq.2 / 3) *
      ((pq.1.1 - (specCentroid pts).1) ^ 2 +
        (pq.1.1 - (specCentroid pts).1) * (pq.2.1 - (specCentroid pts).1) +
        (pq.2.1 - (specCentroid pts).1) ^ 2))).sum

/-- Spec-side product of inertia:
`Σ d·(l/6)·(2·x1'·y1' + x1'·y2' + x2'·y1' + 2·x2'·y2')`. -/
noncomputable def specJxy (pts : List Point) (d : ℝ) : ℝ :=
  ((specPosSegs pts).map (fun pq =>
    d * (segLen pq.1 pq.2 / 6) *
      (2 * (pq.1.1 - (specCentroid pts).1) * (pq.1.2 - (specCentroid pts).2) +
        (pq.1.1 - (specCentroid pts).1) * (pq.2.2 - (specCentroid pts).2) +
        (pq.2.1 - (specCentroid pts).1) * (pq.1.2 - (specCentroid pts).2) +
        2 * (pq.2.1 - (specCentroid pts).1) * (pq.2.2 - (specCentroid pts).2)))).sum

lemma mkSeg_p1 (p q : Point) : (mkSeg p q).p1 = p := rfl

lemma mkSeg_p2 (p q : Point) : (mkSeg p q).p2 = q := rfl

lemma mkSeg_l (p q : Point) : (mkSeg p q).l = segLen p q := rfl

lemma mkSeg_xm (p q : Point) : (mkSeg p q).xm = (p.1 + q.1) / 2 := rfl

lemma mkSeg_ym (p q : Point) : (mkSeg p q).ym = (p.2 + q.2) / 2 := rfl

lemma segLen_nonneg (p q : Point) : 0 ≤ segLen p q := Real.sqrt_nonneg _

lemma segLen_self (p : Point) : segLen p p = 0 := by
  simp [segLen]

/-- The loop's segment list is exactly the positive-length consecutive pairs,
each packaged through `mkSeg`. -/
lemma segsOf_eq_spec : ∀ pts : List Point,
    segsOf pts = (specPosSegs pts).map (fun pq => mkSeg pq.1 pq.2)
  | [] => by simp [segsOf, specPosSegs]
  | [p] => by simp [segsOf, specPosSegs]
  | p :: q :: rest => by
    have ih := segsOf_eq_spec (q :: rest)
    by_cases h : segLen p q = 0 <;>
      simp [segsOf, specPosSegs, List.filter_cons, h, ih]

/-- Membership in the segment list: every stored segment is the `mkSeg` of a
pair of input points with nonzero length. -/
lemma mem_segsOf : ∀ {pts : List Point} {s : Seg}, s ∈ segsOf pts →
    s = mkSeg s.p1 s.p2 ∧ segLen s.p1 s.p2 ≠ 0 ∧ s.p1 ∈ pts ∧ s.p2 ∈ pts
  | [], _, hs => by simp [segsOf] at hs
  | [_], _, hs => by simp [segsOf] at hs
  | p :: q :: rest, s, hs => by
    rw [segsOf] at hs
    rcases List.mem_append.1 hs with h | h
    · by_cases h0 : segLen p q = 0
      · simp [h0] at h
      · simp [h0] at h
        subst h
        exact ⟨rfl, h0, by simp [mkSeg], by simp [mkSeg]⟩
    · obtain ⟨hmk, hne, h1, h2⟩ := mem_segsOf h
      exact ⟨hmk, hne, List.mem_cons_of_mem _ h1, List.mem_cons_of_mem _ h2⟩

lemma seg_l_pos {pts : List Point} {s : Seg} (hs : s ∈ segsOf pts) : 0 < s.l := by
  obtain ⟨hmk, hne, -, -⟩ := mem_segsOf hs
  have : s.l = segLen s.p1 s.p2 := by
    conv_lhs => rw [hmk]
    rfl
  rw [this]
  exact lt_of_le_of_ne (segLen_nonneg _ _) (Ne.symm hne)

lemma seg_xm_eq {pts : List Point} {s : Seg} (hs : s ∈ segsOf pts) :
    s.xm = (s.p1.1 + s.p2.1) / 2 := by
  obtain ⟨hmk, -, -, -⟩ := mem_segsOf hs
  conv_lhs => rw [hmk]
  rfl

lemma seg_ym_eq {pts : List Point} {s : Seg} (hs : s ∈ segsOf pts) :
    s.ym = (s.p1.2 + s.p2.2) / 2 := by
  obtain ⟨hmk, -, -, -⟩ := mem_segsOf hs
  conv_lhs => rw [hmk]
  rfl

lemma total_length_nonneg (pts : List Point) : 0 ≤ total_length pts :=
  List.sum_nonneg (by
    intro a ha
    obtain ⟨s, hs, rfl⟩ := List.mem_map.1 ha
    exact (seg_l_pos hs).le)

/-- The total length vanishes exactly when the loop kept no segment. -/
lemma total_length_eq_zero_iff (pts : List Point) :
    total_length pts = 0 ↔ segsOf pts = [] := by
  constructor
  · intro h
    cases hseg : segsOf pts with
    | nil => rfl
    | cons s t =>
      exfalso
      have hpos : 0 < s.l := seg_l_pos (by rw [hseg]; exact List.mem_cons_self s t)
      have hrest : 0 ≤ (t.map Seg.l).sum :=
        List.sum_nonneg (by
          intro a ha
          obtain ⟨u, hu, rfl⟩ := List.mem_map.1 ha
          exact (seg_l_pos (by rw [hseg]; exact List.mem_cons_of_mem _ hu)).le)
      have : total_length pts = s.l + (t.map Seg.l).sum := by
        rw [total_length, hseg]; simp
      linarith [h ▸ this]
  · intro h
    rw [total_length, h]
    simp

lemma le_foldl_max : ∀ (l : List ℝ) (a : ℝ), a ≤ l.foldl max a
  | [], a => le_refl a
  | b :: t, a => le_trans (le_max_left a b) (le_foldl_max t (max a b))

lemma mem_le_foldl_max : ∀ {l : List ℝ} {x : ℝ}, x ∈ l → ∀ a : ℝ, x ≤ l.foldl max a
  | b :: t, x, hx, a => by
    rcases List.mem_cons.1 hx with rfl | hx
    · exact le_trans (le_max_right a x) (le_foldl_max t (max a x))
    · exact mem_le_foldl_max hx (max a b)

lemma le_listMax {l : List ℝ} {x : ℝ} (hx : x ∈ l) : x ≤ listMax l := by
  cases l with
  | nil => simp at hx
  | cons a t =>
    rcases List.mem_cons.1 hx with rfl | hx
    · exact le_foldl_max t x
    · exact mem_le_foldl_max hx a

lemma foldl_min_le : ∀ (l : List ℝ) (a : ℝ), l.foldl min a ≤ a
  | [], a => le_refl a
  | b :: t, a => le_trans (foldl_min_le t (min a b)) (min_le_left a b)

lemma foldl_min_le_mem : ∀ {l : List ℝ} {x : ℝ}, x ∈ l → ∀ a : ℝ, l.foldl min a ≤ x
  | b :: t, x, hx, a => by
    rcases List.mem_cons.1 hx with rfl | hx
    · exact le_trans (foldl_min_le t (min a x)) (min_le_right a x)
    · exact foldl_min_le_mem hx (min a b)

lemma listMin_le {l : List ℝ} {x : ℝ} (hx : x ∈ l) : listMin l ≤ x := by
  cases l with
  | nil => simp at hx
  | cons a t =>
    rcases List.mem_cons.1 hx with rfl | hx
    · exact foldl_min_le t x
    · exact foldl_min_le_mem hx a

/-- Weighted upper bound: if every segment midpoint value is at most `c`,
the length-weighted sum is at most `c` times the total length. -/
lemma weighted_sum_le {pts : List Point} {c : ℝ} (f : Seg → ℝ)
    (hf : ∀ s ∈ segsOf pts, f s ≤ c) :
    ((segsOf pts).map (fun s => s.l * f s)).sum ≤ c * total_length pts := by
  rw [total_length, ← List.sum_map_mul_left]
  apply List.sum_le_sum
  intro s hs
  calc s.l * f s ≤ s.l * c := by
        exact mul_le_mul_of_nonneg_left (hf s hs) (seg_l_pos hs).le
    _ = c * s.l := mul_comm _ _

/-- Weighted lower bound, dual of `weighted_sum_le`. -/
lemma le_weighted_sum {pts : List Point} {c : ℝ} (f : Seg → ℝ)
    (hf : ∀ s ∈ segsOf pts, c ≤ f s) :
    c * total_length pts ≤ ((segsOf pts).map (fun s => s.l * f s)).sum := by
  rw [total_length, ← List.sum_map_mul_left]
  apply List.sum_le_sum
  intro s hs
  calc c * s.l = s.l * c := mul_comm _ _
    _ ≤ s.l * f s := mul_le_mul_of_nonneg_left (hf s hs) (seg_l_pos hs).le

lemma total_length_pos {pts : List Point} (h : total_length pts ≠ 0) :
    0 < total_length pts :=
  lt_of_le_of_ne (total_length_nonneg pts) (Ne.symm h)

lemma x_bar_le {pts : List Point} {c : ℝ} (h : total_length pts ≠ 0)
    (hc : ∀ s ∈ segsOf pts, s.xm ≤ c) : x_bar pts ≤ c := by
  rw [x_bar, sum_my, div_le_iff₀ (total_length_pos h)]
  exact weighted_sum_le Seg.xm hc

lemma le_x_bar {pts : List Point} {c : ℝ} (h : total_length pts ≠ 0)
    (hc : ∀ s ∈ segsOf pts, c ≤ s.xm) : c ≤ x_bar pts := by
  rw [x_bar, sum_my, le_div_iff₀ (total_length_pos h)]
  exact le_weighted_sum Seg.xm hc

lemma y_bar_le {pts : List Point} {c : ℝ} (h : total_length pts ≠ 0)
    (hc : ∀ s ∈ segsOf pts, s.ym ≤ c) : y_bar pts ≤ c := by
  rw [y_bar, sum_mx, div_le_iff₀ (total_length_pos h)]
  exact weighted_sum_le Seg.ym hc

lemma le_y_bar {pts : List Point} {c : ℝ} (h : total_length pts ≠ 0)
    (hc : ∀ s ∈ segsOf pts, c ≤ s.ym) : c ≤ y_bar pts := by
  rw [y_bar, sum_mx, le_div_iff₀ (total_length_pos h)]
  exact le_weighted_sum Seg.ym hc

lemma mem_x_shifted_all {pts : List Point} {s : Seg} (hs : s ∈ segsOf pts) :
    s.p1.1 - x_bar pts ∈ x_shifted_all pts ∧ s.p2.1 - x_bar pts ∈ x_shifted_all pts := by
  constructor <;>
  · rw [x_shifted_all, List.mem_flatten]
    exact ⟨_, List.mem_map_of_mem _ hs, by simp⟩

lemma mem_y_shifted_all {pts : List Point} {s : Seg} (hs : s ∈ segsOf pts) :
    s.p1.2 - y_bar pts ∈ y_shifted_all pts ∧ s.p2.2 - y_bar pts ∈ y_shifted_all pts := by
  constructor <;>
  · rw [y_shifted_all, List.mem_flatten]
    exact ⟨_, List.mem_map_of_mem _ hs, by simp⟩

/-- The calculator returns `None` exactly when the total length is zero. -/
lemma calc_eq_none_iff (pts : List Point) (d : ℝ) :
    calculate_section_properties pts d = none ↔ total_length pts = 0 := by
  by_cases h : total_length pts = 0 <;> simp [calculate_section_properties, h]

/-- The calculator's successful result, with each field written through the
named accumulator definitions. -/
lemma calc_eq_some {pts : List Point} (d : ℝ) (h : total_length pts ≠ 0) :
    calculate_section_properties pts d = some
      { bo := total_length pts
        Ac := total_length pts * d
        Centroid := (x_bar pts, y_bar pts)
        Jcx := Jcx_c pts d
        Jcy := Jcy_c pts d
        Jxy := Jxy_c pts d
        J_major := J_max pts d
        J_minor := J_min pts d
        theta_deg := theta_rad pts d * 180 / Real.pi
        segments := segsOf pts
        extreme := ⟨c_x_max pts, c_x_min pts, c_y_max pts, c_y_min pts⟩
        points_shifted := (x_shifted_all pts).zip (y_shifted_all pts) } := by
  simp [calculate_section_properties, h]

/-- Inversion of a successful calculator run. -/
lemma calc_some_inv {pts : List Point} {d : ℝ} {r : SectionProperties}
    (h : calculate_section_properties pts d = some r) :
    total_length pts ≠ 0 ∧
    r.bo = total_length pts ∧ r.Ac = total_length pts * d ∧
    r.Centroid = (x_bar pts, y_bar pts) ∧
    r.Jcx = Jcx_c pts d ∧ r.Jcy = Jcy_c pts d ∧ r.Jxy = Jxy_c pts d ∧
    r.J_major = J_max pts d ∧ r.J_minor = J_min pts d ∧
    r.theta_deg = theta_rad pts d * 180 / Real.pi ∧
    r.segments = segsOf pts ∧
    r.extreme = ⟨c_x_max pts, c_x_min pts, c_y_max pts, c_y_min pts⟩ ∧
    r.points_shifted = (x_shifted_all pts).zip (y_shifted_all pts) := by
  by_cases h0 : total_length pts = 0
  · simp [calculate_section_properties, h0] at h
  · rw [calc_eq_some d h0] at h
    obtain rfl := Option.some.inj h.symm
    exact ⟨h0, rfl, rfl, rfl, rfl, rfl, rfl, rfl, rfl, rfl, rfl, rfl, rfl⟩

/-- Dropping one point of a consecutive duplicate pair leaves the segment
list unchanged: the zero-length segment is skipped and the neighbours are
unaffected. -/
lemma segsOf_dup (p : Point) (ys : List Point) :
    ∀ xs : List Point, segsOf (xs ++ p :: p :: ys) = segsOf (xs ++ p :: ys) := by
  intro xs
  induction xs with
  | nil => simp [segsOf, segLen_self]
  | cons a t ih =>
    cases t with
    | nil => simp [segsOf, segLen_self]
    | cons b t' =>
      simp only [List.cons_append, List.append_eq, segsOf] at ih ⊢
      rw [ih]

/-- All accumulator definitions factor through `segsOf`, so equal segment
lists give equal results. -/
lemma calc_congr {pts₁ pts₂ : List Point} (h : segsOf pts₁ = segsOf pts₂) (d : ℝ) :
    calculate_section_properties pts₁ d = calculate_section_properties pts₂ d := by
  have htot : total_length pts₁ = total_length pts₂ := by rw [total_length, h]; rfl
  have hsmx : sum_mx pts₁ = sum_mx pts₂ := by rw [sum_mx, h]; rfl
  have hsmy : sum_my pts₁ = sum_my pts₂ := by rw [sum_my, h]; rfl
  have hxb : x_bar pts₁ = x_bar pts₂ := by rw [x_bar, htot, hsmy]; rfl
  have hyb : y_bar pts₁ = y_bar pts₂ := by rw [y_bar, htot, hsmx]; rfl
  have hxs : x_shifted_all pts₁ = x_shifted_all pts₂ := by
    rw [x_shifted_all, h, hxb]; rfl
  have hys : y_shifted_all pts₁ = y_shifted_all pts₂ := by
    rw [y_shifted_all, h, hyb]; rfl
  have hJcx : Jcx_c pts₁ d = Jcx_c pts₂ d := by rw [Jcx_c, h, hyb]; rfl
  have hJcy : Jcy_c pts₁ d = Jcy_c pts₂ d := by rw [Jcy_c, h, hxb]; rfl
  have hJxy : Jxy_c pts₁ d = Jxy_c pts₂ d := by rw [Jxy_c, h, hxb, hyb]; rfl
  have hJmax : J_max pts₁ d = J_max pts₂ d := by
    rw [J_max, J_max, avg_J, avg_J, radius, radius, diff_J, diff_J, hJcx, hJcy, hJxy]
  have hJmin : J_min pts₁ d = J_min pts₂ d := by
    rw [J_min, J_min, avg_J, avg_J, radius, radius, diff_J, diff_J, hJcx, hJcy, hJxy]
  have htheta : theta_rad pts₁ d = theta_rad pts₂ d := by
    rw [theta_rad, theta_rad, hJcx, hJcy, hJxy]
  have hcxmax : c_x_max pts₁ = c_x_max pts₂ := by rw [c_x_max, c_x_max, hxs]
  have hcxmin : c_x_min pts₁ = c_x_min pts₂ := by rw [c_x_min, c_x_min, hxs]
  have hcymax : c_y_max pts₁ = c_y_max pts₂ := by rw [c_y_max, c_y_max, hys]
  have hcymin : c_y_min pts₁ = c_y_min pts₂ := by rw [c_y_min, c_y_min, hys]
  rw [calculate_section_properties, calculate_section_properties, htot, hxb, hyb,
    hJcx, hJcy, hJxy, hJmax, hJmin, htheta, h, hcxmax, hcxmin, hcymax, hcymin,
    hxs, hys]

/-- Linear scaling of the about-X moment in the depth. -/
lemma Jcx_c_scale (pts : List Point) (d : ℝ) : Jcx_c pts d = d * Jcx_c pts 1 := by
  rw [Jcx_c, Jcx_c, ← List.sum_map_mul_left]
  exact congrArg List.sum (List.map_congr_left (fun s _ => by ring))

/-- Linear scaling of the about-Y moment in the depth. -/
lemma Jcy_c_scale (pts : List Point) (d : ℝ) : Jcy_c pts d = d * Jcy_c pts 1 := by
  rw [Jcy_c, Jcy_c, ← List.sum_map_mul_left]
  exact congrArg List.sum (List.map_congr_left (fun s _ => by ring))

/-- Linear scaling of the product of inertia in the depth. -/
lemma Jxy_c_scale (pts : List Point) (d : ℝ) : Jxy_c pts d = d * Jxy_c pts 1 := by
  rw [Jxy_c, Jxy_c, ← List.sum_map_mul_left]
  exact congrArg List.sum (List.map_congr_left (fun s _ => by ring))

/-- Bound used for the Mohr-circle bracket: a sinusoid with coefficients
`a`, `b` never exceeds `sqrt (a² + b²)` in absolute value. -/
lemma abs_cos_sin_le (a b t : ℝ) :
    |a * Real.cos t + b * Real.sin t| ≤ Real.sqrt (a ^ 2 + b ^ 2) := by
  rw [← Real.sqrt_sq_eq_abs]
  apply Real.sqrt_le_sqrt
  nlinarith [Real.sin_sq_add_cos_sq t, sq_nonneg (a * Real.sin t - b * Real.cos t)]

lemma segsOf_eq_nil_iff (pts : List Point) :
    segsOf pts = [] ↔ ∀ pq ∈ pts.zip pts.tail, segLen pq.1 pq.2 = 0 := by
  rw [segsOf_eq_spec, List.map_eq_nil_iff, specPosSegs, List.filter_eq_nil_iff]
  constructor
  · intro h pq hpq
    by_contra hne
    exact h pq hpq (by simpa using hne)
  · intro h pq hpq
    simp [h pq hpq]

lemma specTotal_eq (pts : List Point) : specTotal pts = total_length pts := by
  rw [specTotal, total_length, segsOf_eq_spec, List.map_map]
  rfl

lemma specCentroid_eq (pts : List Point) :
    specCentroid pts = (x_bar pts, y_bar pts) := by
  rw [specCentroid, x_bar, y_bar, specTotal_eq, sum_my, sum_mx, segsOf_eq_spec,
    List.map_map, List.map_map]
  rfl

lemma specJcx_eq (pts : List Point) (d : ℝ) : specJcx pts d = Jcx_c pts d := by
  rw [specJcx, Jcx_c, specCentroid_eq, segsOf_eq_spec, List.map_map]
  rfl

lemma specJcy_eq (pts : List Point) (d : ℝ) : specJcy pts d = Jcy_c pts d := by
  rw [specJcy, Jcy_c, specCentroid_eq, segsOf_eq_spec, List.map_map]
  rfl

lemma specJxy_eq (pts : List Point) (d : ℝ) : specJxy pts d = Jxy_c pts d := by
  rw [specJxy, Jxy_c, specCentroid_eq, segsOf_eq_spec, List.map_map]
  rfl

/-- Claim C1: for every polyline with positive total segment length and every
depth, the calculator returns the line centroid `(Σ l·x_mid, Σ l·y_mid) / Σ l`
over the positive-length segments, and centroidal moments equal to the
spec's segment sums `d·(l/3)·(y1'² + y1'·y2' + y2'²)` (about X),
`d·(l/3)·(x1'² + x1'·x2' + x2'²)` (about Y) and
`d·(l/6)·(2·x1'·y1' + x1'·y2' + x2'·y1' + 2·x2'·y2')` (product), with
endpoints shifted by the centroid. -/
theorem claim_C1_centroid_and_moments (pts : List Point) (d : ℝ)
    (h : 0 < total_length pts) :
    Option.map SectionProperties.Centroid (calculate_section_properties pts d) =
      some (specCentroid pts) ∧
    Option.map SectionProperties.Jcx (calculate_section_properties pts d) =
      some (specJcx pts d) ∧
    Option.map SectionProperties.Jcy (calculate_section_properties pts d) =
      some (specJcy pts d) ∧
    Option.map SectionProperties.Jxy (calculate_section_properties pts d) =
      some (specJxy pts d) := by
  rw [calc_eq_some d (ne_of_gt h)]
  refine ⟨?_, ?_, ?_, ?_⟩
  · exact congrArg some (specCentroid_eq pts).symm
  · exact congrArg some (specJcx_eq pts d).symm
  · exact congrArg some (specJcy_eq pts d).symm
  · exact congrArg some (specJxy_eq pts d).symm

/-- Claim C2: the calculator fails (returns `None`) exactly when the total
segment length is zero, which happens exactly when every consecutive point
pair coincides; any polyline with a positive-length segment succeeds, and
this is the sole failure mode. -/
theorem claim_C2_empty_section_iff (pts : List Point) (d : ℝ) :
    (calculate_section_properties pts d = none ↔ total_length pts = 0) ∧
    (total_length pts = 0 ↔ ∀ pq ∈ pts.zip pts.tail, segLen pq.1 pq.2 = 0) :=
  ⟨calc_eq_none_iff pts d, by rw [total_length_eq_zero_iff]; exact segsOf_eq_nil_iff pts⟩

/-- Claim C4: the reported rotation angle in degrees is 0 when both
`|Jcx − Jcy|` and `|Jxy|` are below `1e-6`, exactly 45 when only the former
is, and otherwise the degree value of `0.5 · atan2(−2·Jxy, Jcx − Jcy)`. -/
theorem claim_C4_rotation_angle (pts : List Point) (d : ℝ) (r : SectionProperties)
    (h : calculate_section_properties pts d = some r) :
    r.theta_deg =
      if |r.Jcx - r.Jcy| < 1e-6 then
        (if |r.Jxy| < 1e-6 then 0 else 45)
      else 0.5 * atan2 (-2 * r.Jxy) (r.Jcx - r.Jcy) * 180 / Real.pi := by
  obtain ⟨-, -, -, -, hJcx, hJcy, hJxy, -, -, hθ, -, -, -⟩ := calc_some_inv h
  rw [hθ, hJcx, hJcy, hJxy, theta_rad]
  by_cases h1 : |Jcx_c pts d - Jcy_c pts d| < 1e-6
  · rw [if_pos h1, if_pos h1]
    by_cases h2 : |Jxy_c pts d| < 1e-6
    · rw [if_pos h2, if_pos h2]
      norm_num
    · rw [if_neg h2, if_neg h2]
      field_simp
      ring
  · rw [if_neg h1, if_neg h1]

/-- Claim C6: for every successful result and every rotation angle, the
about-axis moment for axes rotated by that angle lies between the returned
principal moments. -/
theorem claim_C6_principal_bracket (pts : List Point) (d : ℝ) (r : SectionProperties)
    (h : calculate_section_properties pts d = some r) (θ : ℝ) :
    r.J_minor ≤ (r.Jcx + r.Jcy) / 2 + ((r.Jcx - r.Jcy) / 2) * Real.cos (2 * θ) -
        r.Jxy * Real.sin (2 * θ) ∧
      (r.Jcx + r.Jcy) / 2 + ((r.Jcx - r.Jcy) / 2) * Real.cos (2 * θ) -
        r.Jxy * Real.sin (2 * θ) ≤ r.J_major := by
  obtain ⟨-, -, -, -, hJcx, hJcy, hJxy, hmax, hmin, -, -, -, -⟩ := calc_some_inv h
  rw [hJcx, hJcy, hJxy, hmax, hmin, J_max, J_min, avg_J, radius, diff_J]
  have hb := abs_cos_sin_le ((Jcx_c pts d - Jcy_c pts d) / 2) (-(Jxy_c pts d)) (2 * θ)
  rw [abs_le, neg_sq] at hb
  constructor <;> [linarith [hb.1]; linarith [hb.2]]

/-- Claim C7: the sum of the returned principal moments equals the sum of
the returned centroidal about-axis moments. -/
theorem claim_C7_trace_preservation (pts : List Point) (d : ℝ) (r : SectionProperties)
    (h : calculate_section_properties pts d = some r) :
    r.J_major + r.J_minor = r.Jcx + r.Jcy := by
  obtain ⟨-, -, -, -, hJcx, hJcy, -, hmax, hmin, -, -, -, -⟩ := calc_some_inv h
  rw [hJcx, hJcy, hmax, hmin, J_max, J_min, avg_J]
  ring

/-- Claim C8: removing one point of a consecutive duplicate pair leaves the
calculator's result unchanged, every output field included. -/
theorem claim_C8_duplicate_point_removal (xs ys : List Point) (p : Point) (d : ℝ) :
    calculate_section_properties (xs ++ p :: p :: ys) d =
      calculate_section_properties (xs ++ p :: ys) d :=
  calc_congr (segsOf_dup p ys xs) d

/-- Claim C10: the depth is never validated — for any depth (zero and
negative included) the calculator succeeds whenever the total length is
nonzero; perimeter, centroid, extreme fibers and segments are independent of
the depth while area and the three centroidal moments scale linearly in it. -/
theorem claim_C10_depth_unvalidated_and_linear (pts : List Point) (d : ℝ)
    (h : total_length pts ≠ 0) :
    calculate_section_properties pts d ≠ none ∧
    Option.map SectionProperties.bo (calculate_section_properties pts d) =
      Option.map SectionProperties.bo (calculate_section_properties pts 1) ∧
    Option.map SectionProperties.Centroid (calculate_section_properties pts d) =
      Option.map SectionProperties.Centroid (calculate_section_properties pts 1) ∧
    Option.map SectionProperties.extreme (calculate_section_properties pts d) =
      Option.map SectionProperties.extreme (calculate_section_properties pts 1) ∧
    Option.map SectionProperties.segments (calculate_section_properties pts d) =
      Option.map SectionProperties.segments (calculate_section_properties pts 1) ∧
    Option.map SectionProperties.Ac (calculate_section_properties pts d) =
      Option.map (HMul.hMul d ∘ SectionProperties.Ac) (calculate_section_properties pts 1) ∧
    Option.map SectionProperties.Jcx (calculate_section_properties pts d) =
      Option.map (HMul.hMul d ∘ SectionProperties.Jcx) (calculate_section_properties pts 1) ∧
    Option.map SectionProperties.Jcy (calculate_section_properties pts d) =
      Option.map (HMul.hMul d ∘ SectionProperties.Jcy) (calculate_section_properties pts 1) ∧
    Option.map SectionProperties.Jxy (calculate_section_properties pts d) =
      Option.map (HMul.hMul d ∘ SectionProperties.Jxy) (calculate_section_properties pts 1) := by
  rw [calc_eq_some d h, calc_eq_some 1 h]
  refine ⟨by simp, rfl, rfl, rfl, rfl, ?_, ?_, ?_, ?_⟩
  · show some (total_length pts * d) = some (d * (total_length pts * 1))
    exact congrArg some (by ring)
  · show some (Jcx_c pts d) = some (d * Jcx_c pts 1)
    exact congrArg some (Jcx_c_scale pts d)
  · show some (Jcy_c pts d) = some (d * Jcy_c pts 1)
    exact congrArg some (Jcy_c_scale pts d)
  · show some (Jxy_c pts d) = some (d * Jxy_c pts 1)
    exact congrArg some (Jxy_c_scale pts d)

/-- Claim C9: every successful result has a strictly positive perimeter, a
centroid inside the bounding extent of the input points, and extreme-fiber
distances bracketing zero. -/
theorem claim_C9_perimeter_pos_centroid_in_extent (pts : List Point) (d : ℝ)
    (r : SectionProperties) (h : calculate_section_properties pts d = some r) :
    0 < r.bo ∧
    listMin (pts.map Prod.fst) ≤ r.Centroid.1 ∧
    r.Centroid.1 ≤ listMax (pts.map Prod.fst) ∧
    listMin (pts.map Prod.snd) ≤ r.Centroid.2 ∧
    r.Centroid.2 ≤ listMax (pts.map Prod.snd) ∧
    r.extreme.cx_neg ≤ 0 ∧ 0 ≤ r.extreme.cx_pos ∧
    r.extreme.cy_neg ≤ 0 ∧ 0 ≤ r.extreme.cy_pos := by
  obtain ⟨h0, hbo, -, hcen, -, -, -, -, -, -, -, hext, -⟩ := calc_some_inv h
  rw [hbo, hcen, hext]
  refine ⟨total_length_pos h0, ?_, ?_, ?_, ?_, ?_, ?_, ?_, ?_⟩
  · apply le_x_bar h0
    intro s hs
    obtain ⟨-, -, hp1, hp2⟩ := mem_segsOf hs
    have h1 := listMin_le (List.mem_map_of_mem Prod.fst hp1)
    have h2 := listMin_le (List.mem_map_of_mem Prod.fst hp2)
    rw [seg_xm_eq hs]
    linarith
  · apply x_bar_le h0
    intro s hs
    obtain ⟨-, -, hp1, hp2⟩ := mem_segsOf hs
    have h1 := le_listMax (List.mem_map_of_mem Prod.fst hp1)
    have h2 := le_listMax (List.mem_map_of_mem Prod.fst hp2)
    rw [seg_xm_eq hs]
    linarith
  · apply le_y_bar h0
    intro s hs
    obtain ⟨-, -, hp1, hp2⟩ := mem_segsOf hs
    have h1 := listMin_le (List.mem_map_of_mem Prod.snd hp1)
    have h2 := listMin_le (List.mem_map_of_mem Prod.snd hp2)
    rw [seg_ym_eq hs]
    linarith
  · apply y_bar_le h0
    intro s hs
    obtain ⟨-, -, hp1, hp2⟩ := mem_segsOf hs
    have h1 := le_listMax (List.mem_map_of_mem Prod.snd hp1)
    have h2 := le_listMax (List.mem_map_of_mem Prod.snd hp2)
    rw [seg_ym_eq hs]
    linarith
  · have key : c_x_min pts + x_bar pts ≤ x_bar pts := by
      apply le_x_bar h0
      intro s hs
      have h1 : c_x_min pts ≤ s.p1.1 - x_bar pts := listMin_le (mem_x_shifted_all hs).1
      have h2 : c_x_min pts ≤ s.p2.1 - x_bar pts := listMin_le (mem_x_shifted_all hs).2
      rw [seg_xm_eq hs]
      linarith
    linarith
  · have key : x_bar pts ≤ c_x_max pts + x_bar pts := by
      apply x_bar_le h0
      intro s hs
      have h1 : s.p1.1 - x_bar pts ≤ c_x_max pts := le_listMax (mem_x_shifted_all hs).1
      have h2 : s.p2.1 - x_bar pts ≤ c_x_max pts := le_listMax (mem_x_shifted_all hs).2
      rw [seg_xm_eq hs]
      linarith
    linarith
  · have key : c_y_min pts + y_bar pts ≤ y_bar pts := by
      apply le_y_bar h0
      intro s hs
      have h1 : c_y_min pts ≤ s.p1.2 - y_bar pts := listMin_le (mem_y_shifted_all hs).1
      have h2 : c_y_min pts ≤ s.p2.2 - y_bar pts := listMin_le (mem_y_shifted_all hs).2
      rw [seg_ym_eq hs]
      linarith
    linarith
  · have key : y_bar pts ≤ c_y_max pts + y_bar pts := by
      apply y_bar_le h0
      intro s hs
      have h1 : s.p1.2 - y_bar pts ≤ c_y_max pts := le_listMax (mem_y_shifted_all hs).1
      have h2 : s.p2.2 - y_bar pts ≤ c_y_max pts := le_listMax (mem_y_shifted_all hs).2
      rw [seg_ym_eq hs]
      linarith
    linarith

/-- Concrete witness polyline: the unit segment from `(2, 0)` to `(3, 0)`. -/
noncomputable def pts0 : List Point := [(2, 0), (3, 0)]

lemma segLen_pts0 : segLen ((2 : ℝ), (0 : ℝ)) (3, 0) = 1 := by
  rw [segLen]
  norm_num

lemma segsOf_pts0 : segsOf pts0 = [mkSeg (2, 0) (3, 0)] := by
  rw [pts0]
  simp [segsOf, segLen_pts0]

lemma total_pts0 : total_length pts0 = 1 := by
  rw [total_length, segsOf_pts0]
  simp [mkSeg, segLen_pts0]

lemma total_pts0_ne : total_length pts0 ≠ 0 := by
  rw [total_pts0]
  norm_num

lemma x_bar_pts0 : x_bar pts0 = 5 / 2 := by
  rw [x_bar, total_pts0, sum_my, segsOf_pts0]
  simp [mkSeg, segLen_pts0]
  norm_num

lemma y_bar_pts0 : y_bar pts0 = 0 := by
  rw [y_bar, total_pts0, sum_mx, segsOf_pts0]
  simp [mkSeg, segLen_pts0]

/-- The result record of the calculator on `pts0` with depth 1. -/
noncomputable def res0 : SectionProperties :=
  { bo := total_length pts0
    Ac := total_length pts0 * 1
    Centroid := (x_bar pts0, y_bar pts0)
    Jcx := Jcx_c pts0 1
    Jcy := Jcy_c pts0 1
    Jxy := Jxy_c pts0 1
    J_major := J_max pts0 1
    J_minor := J_min pts0 1
    theta_deg := theta_rad pts0 1 * 180 / Real.pi
    segments := segsOf pts0
    extreme := ⟨c_x_max pts0, c_x_min pts0, c_y_max pts0, c_y_min pts0⟩
    points_shifted := (x_shifted_all pts0).zip (y_shifted_all pts0) }

lemma calc_pts0 : calculate_section_properties pts0 1 = some res0 := by
  simp only [res0]
  exact calc_eq_some 1 total_pts0_ne

/-- Claim C1 witness: the unit segment has positive total length, and the
theorem applies to it. -/
theorem claim_C1_witness :
    0 < total_length pts0 ∧
    (Option.map SectionProperties.Centroid (calculate_section_properties pts0 1) =
        some (specCentroid pts0) ∧
      Option.map SectionProperties.Jcx (calculate_section_properties pts0 1) =
        some (specJcx pts0 1) ∧
      Option.map SectionProperties.Jcy (calculate_section_properties pts0 1) =
        some (specJcy pts0 1) ∧
      Option.map SectionProperties.Jxy (calculate_section_properties pts0 1) =
        some (specJxy pts0 1)) :=
  ⟨by rw [total_pts0]; norm_num,
    claim_C1_centroid_and_moments pts0 1 (by rw [total_pts0]; norm_num)⟩

/-- Claim C4 witness: the rotation-angle formula instantiated on the unit
segment's successful run. -/
theorem claim_C4_witness :
    res0.theta_deg =
      if |res0.Jcx - res0.Jcy| < 1e-6 then
        (if |res0.Jxy| < 1e-6 then 0 else 45)
      else 0.5 * atan2 (-2 * res0.Jxy) (res0.Jcx - res0.Jcy) * 180 / Real.pi :=
  claim_C4_rotation_angle pts0 1 res0 calc_pts0

/-- Claim C6 witness: the bracket at rotation angle zero on the unit
segment's successful run. -/
theorem claim_C6_witness :
    res0.J_minor ≤ (res0.Jcx + res0.Jcy) / 2 + ((res0.Jcx - res0.Jcy) / 2) *
        Real.cos (2 * 0) - res0.Jxy * Real.sin (2 * 0) ∧
      (res0.Jcx + res0.Jcy) / 2 + ((res0.Jcx - res0.Jcy) / 2) * Real.cos (2 * 0) -
        res0.Jxy * Real.sin (2 * 0) ≤ res0.J_major :=
  claim_C6_principal_bracket pts0 1 res0 calc_pts0 0

/-- Claim C7 witness: trace preservation on the unit segment's run. -/
theorem claim_C7_witness : res0.J_major + res0.J_minor = res0.Jcx + res0.Jcy :=
  claim_C7_trace_preservation pts0 1 res0 calc_pts0

/-- Claim C9 witness: the invariants on the unit segment's run. -/
theorem claim_C9_witness :
    0 < res0.bo ∧
    listMin (pts0.map Prod.fst) ≤ res0.Centroid.1 ∧
    res0.Centroid.1 ≤ listMax (pts0.map Prod.fst) ∧
    listMin (pts0.map Prod.snd) ≤ res0.Centroid.2 ∧
    res0.Centroid.2 ≤ listMax (pts0.map Prod.snd) ∧
    res0.extreme.cx_neg ≤ 0 ∧ 0 ≤ res0.extreme.cx_pos ∧
    res0.extreme.cy_neg ≤ 0 ∧ 0 ≤ res0.extreme.cy_pos :=
  claim_C9_perimeter_pos_centroid_in_extent pts0 1 res0 calc_pts0

/-- Claim C10 witness: depth 0 succeeds on the unit segment and its area and
moments are the zero multiples of the depth-1 run's. -/
theorem claim_C10_witness :
    calculate_section_properties pts0 0 ≠ none ∧
    Option.map SectionProperties.bo (calculate_section_properties pts0 0) =
      Option.map SectionProperties.bo (calculate_section_properties pts0 1) ∧
    Option.map SectionProperties.Centroid (calculate_section_properties pts0 0) =
      Option.map SectionProperties.Centroid (calculate_section_properties pts0 1) ∧
    Option.map SectionProperties.extreme (calculate_section_properties pts0 0) =
      Option.map SectionProperties.extreme (calculate_section_properties pts0 1) ∧
    Option.map SectionProperties.segments (calculate_section_properties pts0 0) =
      Option.map SectionProperties.segments (calculate_section_properties pts0 1) ∧
    Option.map SectionProperties.Ac (calculate_section_properties pts0 0) =
      Option.map (HMul.hMul (0 : ℝ) ∘ SectionProperties.Ac)
        (calculate_section_properties pts0 1) ∧
    Option.map SectionProperties.Jcx (calculate_section_properties pts0 0) =
      Option.map (HMul.hMul (0 : ℝ) ∘ SectionProperties.Jcx)
        (calculate_section_properties pts0 1) ∧
    Option.map SectionProperties.Jcy (calculate_section_properties pts0 0) =
      Option.map (HMul.hMul (0 : ℝ) ∘ SectionProperties.Jcy)
        (calculate_section_properties pts0 1) ∧
    Option.map SectionProperties.Jxy (calculate_section_properties pts0 0) =
      Option.map (HMul.hMul (0 : ℝ) ∘ SectionProperties.Jxy)
        (calculate_section_properties pts0 1) :=
  claim_C10_depth_unvalidated_and_linear pts0 0 total_pts0_ne

/-- Claim C5: with positive half-dimensions and nonnegative offset, the
generator returns the closed 9-point interior octagon (last point repeating
the first), the open 6-point edge chain (first six interior points, first ≠
last), and the open 4-point corner chain (first ≠ last). -/
theorem claim_C5_generator_shapes (hw hd off : ℝ) (h1 : 0 < hw) (h2 : 0 < hd)
    (h3 : 0 ≤ off) :
    generate_critical_section (2 * hw) (2 * hd) off "Interior" =
      [(-hw, hd + off), (hw, hd + off), (hw + off, hd), (hw + off, -hd),
        (hw, -(hd + off)), (-hw, -(hd + off)), (-(hw + off), -hd),
        (-(hw + off), hd), (-hw, hd + off)] ∧
    generate_critical_section (2 * hw) (2 * hd) off "Edge (Left Free)" =
      [(-hw, hd + off), (hw, hd + off), (hw + off, hd), (hw + off, -hd),
        (hw, -(hd + off)), (-hw, -(hd + off))] ∧
    ((-hw, hd + off) : Point) ≠ (-hw, -(hd + off)) ∧
    generate_critical_section (2 * hw) (2 * hd) off "Corner (Top-Left Free)" =
      [(hw + off, hd), (hw + off, -hd), (hw, -(hd + off)), (-hw, -(hd + off))] ∧
    ((hw + off, hd) : Point) ≠ (-hw, -(hd + off)) := by
  refine ⟨?_, ?_, ?_, ?_, ?_⟩
  · simp only [generate_critical_section,
      show (("Interior" : String) = "Interior") = True by simp, if_true]
    norm_num
  · simp only [generate_critical_section,
      show (("Edge (Left Free)" : String) = "Interior") = False by simp,
      show (("Edge (Left Free)" : String) = "Edge (Left Free)") = True by simp,
      if_false, if_true]
    norm_num
  · intro heq
    rw [Prod.mk.injEq] at heq
    have := heq.2
    linarith
  · simp only [generate_critical_section,
      show (("Corner (Top-Left Free)" : String) = "Interior") = False by simp,
      show (("Corner (Top-Left Free)" : String) = "Edge (Left Free)") = False by simp,
      show (("Corner (Top-Left Free)" : String) = "Corner (Top-Left Free)") = True by simp,
      if_false, if_true]
    norm_num
  · intro heq
    rw [Prod.mk.injEq] at heq
    have := heq.2
    linarith

/-- Claim C5 witness: the shapes at half-width 1, half-depth 1, offset 1. -/
theorem claim_C5_witness :
    (0 : ℝ) < 1 ∧ (0 : ℝ) ≤ 1 ∧
    (generate_critical_section (2 * 1) (2 * 1) 1 "Interior" =
      [(-1, 1 + 1), (1, 1 + 1), ((1 : ℝ) + 1, 1), ((1 : ℝ) + 1, -1),
        (1, -((1 : ℝ) + 1)), (-1, -((1 : ℝ) + 1)), (-((1 : ℝ) + 1), -1),
        (-((1 : ℝ) + 1), 1), (-1, (1 : ℝ) + 1)] ∧
    generate_critical_section (2 * 1) (2 * 1) 1 "Edge (Left Free)" =
      [(-1, 1 + 1), (1, 1 + 1), ((1 : ℝ) + 1, 1), ((1 : ℝ) + 1, -1),
        (1, -((1 : ℝ) + 1)), (-1, -((1 : ℝ) + 1))] ∧
    ((-1, (1 : ℝ) + 1) : Point) ≠ (-1, -((1 : ℝ) + 1)) ∧
    generate_critical_section (2 * 1) (2 * 1) 1 "Corner (Top-Left Free)" =
      [((1 : ℝ) + 1, 1), ((1 : ℝ) + 1, -1), (1, -((1 : ℝ) + 1)),
        (-1, -((1 : ℝ) + 1))] ∧
    ((1 + 1, (1 : ℝ)) : Point) ≠ (-1, -((1 : ℝ) + 1))) :=
  ⟨by norm_num, by norm_num,
    claim_C5_generator_shapes 1 1 1 (by norm_num) (by norm_num) (by norm_num)⟩

/-- The interior critical-section octagon for the D.1 inputs (half-width 6,
half-depth 10, offset 25.3). -/
noncomputable def octPts : List Point :=
  [(-6, 35.3), (6, 35.3), (31.3, 10), (31.3, -10), (6, -35.3),
    (-6, -35.3), (-31.3, -10), (-31.3, 10), (-6, 35.3)]

lemma gen_oct : generate_critical_section 12 20 25.3 "Interior" = octPts := by
  simp only [generate_critical_section, octPts,
    show (("Interior" : String) = "Interior") = True by simp, if_true]
  norm_num

lemma segLen_eq_of_sq {p q : Point} {v : ℝ} (hv : 0 ≤ v)
    (h : (q.1 - p.1) ^ 2 + (q.2 - p.2) ^ 2 = v ^ 2) : segLen p q = v := by
  rw [segLen, h, Real.sqrt_sq hv]

lemma oct_L1 : segLen ((-6 : ℝ), (35.3 : ℝ)) (6, 35.3) = 12 :=
  segLen_eq_of_sq (by norm_num) (by norm_num)

lemma oct_L2 : segLen ((6 : ℝ), (35.3 : ℝ)) (31.3, 10) = 25.3 * Real.sqrt 2 :=
  segLen_eq_of_sq (by positivity)
    (by rw [mul_pow, Real.sq_sqrt (by norm_num : (0 : ℝ) ≤ 2)]; norm_num)

lemma oct_L3 : segLen ((31.3 : ℝ), (10 : ℝ)) (31.3, -10) = 20 :=
  segLen_eq_of_sq (by norm_num) (by norm_num)

lemma oct_L4 : segLen ((31.3 : ℝ), (-10 : ℝ)) (6, -35.3) = 25.3 * Real.sqrt 2 :=
  segLen_eq_of_sq (by positivity)
    (by rw [mul_pow, Real.sq_sqrt (by norm_num : (0 : ℝ) ≤ 2)]; norm_num)

lemma oct_L5 : segLen ((6 : ℝ), (-35.3 : ℝ)) (-6, -35.3) = 12 :=
  segLen_eq_of_sq (by norm_num) (by norm_num)

lemma oct_L6 : segLen ((-6 : ℝ), (-35.3 : ℝ)) (-31.3, -10) = 25.3 * Real.sqrt 2 :=
  segLen_eq_of_sq (by positivity)
    (by rw [mul_pow, Real.sq_sqrt (by norm_num : (0 : ℝ) ≤ 2)]; norm_num)

lemma oct_L7 : segLen ((-31.3 : ℝ), (-10 : ℝ)) (-31.3, 10) = 20 :=
  segLen_eq_of_sq (by norm_num) (by norm_num)

lemma oct_L8 : segLen ((-31.3 : ℝ), (10 : ℝ)) (-6, 35.3) = 25.3 * Real.sqrt 2 :=
  segLen_eq_of_sq (by positivity)
    (by rw [mul_pow, Real.sq_sqrt (by norm_num : (0 : ℝ) ≤ 2)]; norm_num)

lemma cham_ne : (25.3 : ℝ) * Real.sqrt 2 ≠ 0 := by positivity

lemma segsOf_oct : segsOf octPts =
    [mkSeg (-6, 35.3) (6, 35.3), mkSeg (6, 35.3) (31.3, 10),
      mkSeg (31.3, 10) (31.3, -10), mkSeg (31.3, -10) (6, -35.3),
      mkSeg (6, -35.3) (-6, -35.3), mkSeg (-6, -35.3) (-31.3, -10),
      mkSeg (-31.3, -10) (-31.3, 10), mkSeg (-31.3, 10) (-6, 35.3)] := by
  simp only [octPts]
  simp [segsOf, oct_L1, oct_L2, oct_L3, oct_L4, oct_L5, oct_L6, oct_L7, oct_L8, cham_ne]
  norm_num

lemma total_oct : total_length octPts = 64 + 101.2 * Real.sqrt 2 := by
  rw [total_length, segsOf_oct]
  simp only [List.map_cons, List.map_nil, List.sum_cons, List.sum_nil, mkSeg_l]
  rw [oct_L1, oct_L2, oct_L3, oct_L4, oct_L5, oct_L6, oct_L7, oct_L8]
  ring

lemma total_oct_ne : total_length octPts ≠ 0 := by
  rw [total_oct]
  positivity

lemma sum_my_oct : sum_my octPts = 0 := by
  rw [sum_my, segsOf_oct]
  simp only [List.map_cons, List.map_nil, List.sum_cons, List.sum_nil, mkSeg_l, mkSeg_xm]
  rw [oct_L1, oct_L2, oct_L3, oct_L4, oct_L5, oct_L6, oct_L7, oct_L8]
  norm_num

lemma sum_mx_oct : sum_mx octPts = 0 := by
  rw [sum_mx, segsOf_oct]
  simp only [List.map_cons, List.map_nil, List.sum_cons, List.sum_nil, mkSeg_l, mkSeg_ym]
  rw [oct_L1, oct_L2, oct_L3, oct_L4, oct_L5, oct_L6, oct_L7, oct_L8]
  norm_num

lemma x_bar_oct : x_bar octPts = 0 := by
  rw [x_bar, sum_my_oct, zero_div]

lemma y_bar_oct : y_bar octPts = 0 := by
  rw [y_bar, sum_mx_oct, zero_div]

lemma Jxy_oct : Jxy_c octPts 5.62 = 0 := by
  rw [Jxy_c, segsOf_oct, x_bar_oct, y_bar_oct]
  simp only [List.map_cons, List.map_nil, List.sum_cons, List.sum_nil, mkSeg_l,
    mkSeg_p1, mkSeg_p2]
  rw [oct_L1, oct_L2, oct_L3, oct_L4, oct_L5, oct_L6, oct_L7, oct_L8]
  norm_num

lemma Jdiff_oct : Jcx_c octPts 5.62 - Jcy_c octPts 5.62 =
    -86787974 / 1875 + 58722818 / 625 * Real.sqrt 2 := by
  rw [Jcx_c, Jcy_c, segsOf_oct, x_bar_oct, y_bar_oct]
  simp only [List.map_cons, List.map_nil, List.sum_cons, List.sum_nil, mkSeg_l,
    mkSeg_p1, mkSeg_p2]
  rw [oct_L1, oct_L2, oct_L3, oct_L4, oct_L5, oct_L6, oct_L7, oct_L8]
  norm_num
  ring

lemma sqrt2_gt : (1.4142 : ℝ) < Real.sqrt 2 := by
  rw [show (1.4142 : ℝ) = Real.sqrt (1.4142 ^ 2) from (Real.sqrt_sq (by norm_num)).symm]
  exact Real.sqrt_lt_sqrt (by positivity) (by norm_num)

lemma sqrt2_lt : Real.sqrt 2 < 1.41422 := by
  rw [show (1.41422 : ℝ) = Real.sqrt (1.41422 ^ 2) from (Real.sqrt_sq (by norm_num)).symm]
  exact Real.sqrt_lt_sqrt (by norm_num) (by norm_num)

lemma Jdiff_oct_pos : 0 < Jcx_c octPts 5.62 - Jcy_c octPts 5.62 := by
  rw [Jdiff_oct]
  linarith [sqrt2_gt]

lemma Jdiff_oct_large : ¬(|Jcx_c octPts 5.62 - Jcy_c octPts 5.62| < 1e-6) := by
  rw [not_lt, abs_of_pos Jdiff_oct_pos, Jdiff_oct]
  linarith [sqrt2_gt]

lemma theta_oct : theta_rad octPts 5.62 = 0 := by
  rw [theta_rad, if_neg Jdiff_oct_large, Jxy_oct,
    show (-2 : ℝ) * 0 = 0 by norm_num, atan2, if_pos Jdiff_oct_pos, zero_div,
    Real.arctan_zero, mul_zero]

/-- Claim C3 counterexample: on the Interior D.1 inputs (half-width 6,
half-depth 10, offset 25.3, depth 5.62) the computed perimeter is
`64 + 101.2·√2 ≈ 207.12`, which exceeds the claimed `≈ 131.72` by more than
70 length units, so the claim's perimeter (and hence area `≈ 740.3`) is
wrong as stated. -/
theorem claim_C3_counterexample :
    Option.map SectionProperties.bo
      (calculate_section_properties (generate_critical_section 12 20 25.3 "Interior")
        5.62) = some (64 + 101.2 * Real.sqrt 2) ∧
    131.72 + 70 < 64 + 101.2 * Real.sqrt 2 := by
  constructor
  · rw [gen_oct, calc_eq_some 5.62 total_oct_ne]
    exact congrArg some total_oct
  · linarith [sqrt2_gt]

/-- Claim C3 amended: on the Interior D.1 inputs the computed perimeter is
exactly `64 + 101.2·√2` (between 207 and 207.2, ≈ 207.12), the area is that
perimeter times the depth 5.62 (≈ 1164.0), the centroid is exactly `(0, 0)`,
and the rotation angle is 0 degrees. -/
theorem claim_C3_interior_reference_case :
    Option.map SectionProperties.bo
      (calculate_section_properties (generate_critical_section 12 20 25.3 "Interior")
        5.62) = some (64 + 101.2 * Real.sqrt 2) ∧
    Option.map SectionProperties.Ac
      (calculate_section_properties (generate_critical_section 12 20 25.3 "Interior")
        5.62) = some ((64 + 101.2 * Real.sqrt 2) * 5.62) ∧
    Option.map SectionProperties.Centroid
      (calculate_section_properties (generate_critical_section 12 20 25.3 "Interior")
        5.62) = some (0, 0) ∧
    Option.map SectionProperties.theta_deg
      (calculate_section_properties (generate_critical_section 12 20 25.3 "Interior")
        5.62) = some 0 ∧
    207 < 64 + 101.2 * Real.sqrt 2 ∧ 64 + 101.2 * Real.sqrt 2 < 207.2 := by
  rw [gen_oct, calc_eq_some 5.62 total_oct_ne]
  refine ⟨congrArg some total_oct, ?_, ?_, ?_, ?_, ?_⟩
  · exact congrArg some (by rw [total_oct])
  · exact congrArg some (by rw [x_bar_oct, y_bar_oct])
  · exact congrArg some (by rw [theta_oct, zero_mul, zero_div])
  · linarith [sqrt2_gt]
  · linarith [sqrt2_lt]

end PunchingShear
